import Mathlib

/-!
Shallow embedding of the echo-app server (src/unnamed/part_004, an Express
server over a flat JSON store).  Records are translated field-for-field from
the JavaScript object literals; route handlers become pure functions from a
store snapshot (plus the request parameters and the values the handler draws
from the environment: fresh ids, timestamps, the random colour) to the new
snapshot and the HTTP response.  Timestamps are kept as opaque strings, as in
the JSON file.
-/

namespace Echo

/-- A vote row, as pushed by the vote route:
`{ postId, voterId, type, timestamp }`. -/
structure Vote where
  postId : String
  voterId : String
  type : String
  timestamp : String
deriving DecidableEq

/-- A post, as built by the create-post route:
`{ id, content, tags, media, ownerId, timestamp, color }`.
Media entries are kept by their fileUrl. -/
structure Post where
  id : String
  content : String
  tags : List String
  media : List String
  ownerId : String
  timestamp : String
  color : Nat
deriving DecidableEq

/-- A comment row: `{ id, postId, content, timestamp }`. -/
structure Comment where
  id : String
  postId : String
  content : String
  timestamp : String
deriving DecidableEq

/-- A bookmark row: `{ postId, userId, timestamp }`. -/
structure Bookmark where
  postId : String
  userId : String
  timestamp : String
deriving DecidableEq

/-- A report is kept as the key/value map the route literally pushes, so that
which keys the stored object has is part of the model. -/
abbrev Report := List (String × String)

/-- The db.json snapshot: `{ posts, comments, votes, bookmarks, reports }`
(the unused `users` array is omitted). -/
structure DB where
  posts : List Post
  comments : List Comment
  votes : List Vote
  bookmarks : List Bookmark
  reports : List Report
deriving DecidableEq

/-- The predicate `v => v.postId === id && v.voterId === voterId` used by
findIndex/find in the vote route. -/
def votePair (id voterId : String) (v : Vote) : Bool :=
  v.postId == id && v.voterId == voterId

/-- `postVotes.filter(v => v.type === 'up').length` after
`postVotes = db.votes.filter(v => v.postId === id)`. -/
def upvotesFor (votes : List Vote) (id : String) : Nat :=
  ((votes.filter (fun v => v.postId == id)).filter (fun v => v.type == "up")).length

/-- `postVotes.filter(v => v.type === 'down').length`. -/
def downvotesFor (votes : List Vote) (id : String) : Nat :=
  ((votes.filter (fun v => v.postId == id)).filter (fun v => v.type == "down")).length

/-- `netVotes = upvotes - downvotes` (JS numbers may go negative, so Int). -/
def netVotesFor (votes : List Vote) (id : String) : Int :=
  (upvotesFor votes id : Int) - (downvotesFor votes id : Int)

/-- The three sequential milestone assignments of the vote route:
`if (netVotes === 10) ... if (netVotes === 50) ... if (netVotes === 100) ...`
(the conditions are mutually exclusive, so sequential overwrites equal
first-match). -/
def milestoneFor (net : Int) : Option String :=
  if net = 10 then some "Hot Post!"
  else if net = 50 then some "Viral!"
  else if net = 100 then some "Legendary!"
  else none

/-- The findIndex-then-mutate block of the vote route: the first vote matching
(postId, voterId) is removed when its type equals the request (toggle off),
overwritten in place when it differs (change vote); with no match a fresh row
is pushed at the end. -/
def updateVotes (votes : List Vote) (id voterId ty now : String) : List Vote :=
  match votes with
  | [] => [⟨id, voterId, ty, now⟩]
  | v :: rest =>
    if votePair id voterId v then
      if v.type == ty then rest
      else { v with type := ty } :: rest
    else v :: updateVotes rest id voterId ty now

/-- The JSON body answered by the vote route. -/
structure VoteResponse where
  upvotes : Nat
  downvotes : Nat
  netVotes : Int
  milestone : Option String
  userVote : Option String
deriving DecidableEq

/-- POST /api/posts/:id/vote.  Returns the snapshot after the call (unchanged
on an error response) and either the HTTP error status or the response body. -/
def castVote (db : DB) (id voterId ty now : String) :
    DB × Except Nat VoteResponse :=
  if ¬ (ty = "up" ∨ ty = "down") then (db, Except.error 400)
  else if (db.posts.findIdx? (fun p => p.id == id)).isNone then (db, Except.error 404)
  else
    let votes := updateVotes db.votes id voterId ty now
    let up := upvotesFor votes id
    let down := downvotesFor votes id
    let net : Int := (up : Int) - (down : Int)
    ({ db with votes := votes },
     Except.ok
       { upvotes := up
         downvotes := down
         netVotes := net
         milestone := milestoneFor net
         userVote := (votes.find? (votePair id voterId)).map Vote.type })

/-- The predicate `b => b.postId === id && b.userId === userId` of the
bookmark route. -/
def bookmarkPair (id userId : String) (b : Bookmark) : Bool :=
  b.postId == id && b.userId == userId

/-- `db.bookmarks.filter(b => b !== existingBookmark)` where existingBookmark
is the first find match: exactly the first row for the pair is dropped. -/
def removeFirstBookmark (bs : List Bookmark) (id userId : String) : List Bookmark :=
  match bs with
  | [] => []
  | b :: rest =>
    if bookmarkPair id userId b then rest
    else b :: removeFirstBookmark rest id userId

/-- POST /api/posts/:id/bookmark.  Never answers an error status; the Bool is
the `bookmarked` field of the response. -/
def toggleBookmark (db : DB) (id userId now : String) : DB × Bool :=
  match db.bookmarks.find? (bookmarkPair id userId) with
  | some _ => ({ db with bookmarks := removeFirstBookmark db.bookmarks id userId }, false)
  | none => ({ db with bookmarks := db.bookmarks ++ [⟨id, userId, now⟩] }, true)

/-- DELETE /api/posts/:id (owner route).  File unlinking is outside the
store model; the record-level cascade is the four filters. -/
def deletePost (db : DB) (id voterId : String) : DB × Except Nat Unit :=
  match db.posts.find? (fun p => p.id == id) with
  | none => (db, Except.error 404)
  | some post =>
    if post.ownerId != voterId then (db, Except.error 403)
    else
      ({ posts := db.posts.filter (fun p => p.id != id)
         comments := db.comments.filter (fun c => c.postId != id)
         votes := db.votes.filter (fun v => v.postId != id)
         bookmarks := db.bookmarks.filter (fun b => b.postId != id)
         reports := db.reports },
       Except.ok ())

/-- `db.posts.splice(postIndex, 1)` of the admin delete route: drop the first
post whose id matches. -/
def removeFirstPost (ps : List Post) (id : String) : List Post :=
  match ps with
  | [] => []
  | p :: rest => if p.id == id then rest else p :: removeFirstPost rest id

/-- DELETE /api/admin/posts/:id (admin route, no ownership check). -/
def adminDeletePost (db : DB) (id : String) : DB × Except Nat Unit :=
  if (db.posts.findIdx? (fun p => p.id == id)).isNone then (db, Except.error 404)
  else
    ({ posts := removeFirstPost db.posts id
       comments := db.comments.filter (fun c => c.postId != id)
       votes := db.votes.filter (fun v => v.postId != id)
       bookmarks := db.bookmarks.filter (fun b => b.postId != id)
       reports := db.reports },
     Except.ok ())

/-- POST /api/admin/ban.  The banned list is banned.json's array.  Note the
order in the source: `db.posts` is reassigned to the filtered list first, and
the comment/vote filters then look the postId up in that already-filtered
list (`!post || post.ownerId !== voterId`). -/
def banUser (banned : List String) (db : DB) (voterId : String) (deletePosts : Bool) :
    List String × DB :=
  let banned1 := if banned.contains voterId then banned else banned ++ [voterId]
  if deletePosts then
    let posts1 := db.posts.filter (fun p => p.ownerId != voterId)
    let comments1 := db.comments.filter (fun c =>
      match posts1.find? (fun p => p.id == c.postId) with
      | none => true
      | some p => p.ownerId != voterId)
    let votes1 := db.votes.filter (fun v =>
      match posts1.find? (fun p => p.id == v.postId) with
      | none => true
      | some p => p.ownerId != voterId)
    (banned1, { db with posts := posts1, comments := comments1, votes := votes1 })
  else (banned1, db)

/-- POST /api/posts.  `newId`, `now` and `color` stand for uuidv4(), the
current ISO timestamp and `Math.floor(Math.random()*5)`.  The length checks
run before the store is even read. -/
def createPost (db : DB) (content : String) (tags media : List String)
    (ownerId newId now : String) (color : Nat) : DB × Except Nat Post :=
  if content.trim.length = 0 then (db, Except.error 400)
  else if content.length > 1000 then (db, Except.error 400)
  else
    let newPost : Post :=
      { id := newId, content := content.trim, tags := tags, media := media,
        ownerId := ownerId, timestamp := now, color := color }
    ({ db with posts := newPost :: db.posts }, Except.ok newPost)

/-- `reason || 'No reason provided'` (undefined and the empty string are the
falsy strings). -/
def reasonOrDefault (reason : Option String) : String :=
  match reason with
  | none => "No reason provided"
  | some r => if r = "" then "No reason provided" else r

/-- The object literal pushed by the report route — these five keys and no
others. -/
def mkReport (newId id reason reportedBy now : String) : Report :=
  [("id", newId), ("postId", id), ("reason", reason),
   ("reportedBy", reportedBy), ("timestamp", now)]

/-- POST /api/posts/:id/report. -/
def submitReport (db : DB) (id : String) (reason : Option String)
    (reporterId newId now : String) : DB × Except Nat Unit :=
  if (db.posts.find? (fun p => p.id == id)).isNone then (db, Except.error 404)
  else
    ({ db with reports :=
        db.reports ++ [mkReport newId id (reasonOrDefault reason) reporterId now] },
     Except.ok ())

/-- A character matched by `\w`. -/
def isWordChar (c : Char) : Bool :=
  c.isAlpha || c.isDigit || c == '_'

/-- The successive matches of the regex `#\w+` over the characters. -/
def hashtagMatches : List Char → List String
  | [] => []
  | c :: rest =>
    if c == '#' then
      let w := rest.takeWhile isWordChar
      if w.isEmpty then hashtagMatches rest
      else String.mk ('#' :: w) :: hashtagMatches (rest.dropWhile isWordChar)
    else hashtagMatches rest
termination_by cs => cs.length
decreasing_by
  · simp
  · exact Nat.lt_succ_of_le (List.dropWhile_sublist isWordChar).length_le
  · simp

/-- `[...new Set(xs)]`: deduplicate keeping the first occurrence, in order. -/
def dedupFirst : List String → List String
  | [] => []
  | x :: rest => x :: dedupFirst (rest.filter (fun y => y != x))
termination_by xs => xs.length
decreasing_by
  simpa using Nat.lt_succ_of_le (List.length_filter_le _ rest)

/-- extractHashtags: lowercased `#\w+` matches, first-occurrence dedup. -/
def extractHashtags (content : String) : List String :=
  dedupFirst ((hashtagMatches content.data).map String.toLower)

/-- One element of the GET /api/posts response. -/
structure EnrichedPost where
  post : Post
  comments : List Comment
  commentCount : Nat
  upvotes : Nat
  downvotes : Nat
  netVotes : Int
  userVote : Option String
  isOwner : Bool
  isBookmarked : Bool
  hashtags : List String
deriving DecidableEq

/-- The per-post map body of GET /api/posts. -/
def enrich (db : DB) (voterId : String) (post : Post) : EnrichedPost :=
  let postComments := db.comments.filter (fun c => c.postId == post.id)
  let postVotes := db.votes.filter (fun v => v.postId == post.id)
  { post := post
    comments := postComments
    commentCount := postComments.length
    upvotes := (postVotes.filter (fun v => v.type == "up")).length
    downvotes := (postVotes.filter (fun v => v.type == "down")).length
    netVotes := ((postVotes.filter (fun v => v.type == "up")).length : Int) -
      ((postVotes.filter (fun v => v.type == "down")).length : Int)
    userVote := (db.votes.find? (votePair post.id voterId)).map Vote.type
    isOwner := post.ownerId == voterId
    isBookmarked := db.bookmarks.any (bookmarkPair post.id voterId)
    hashtags := extractHashtags post.content }

/-- GET /api/posts: map, then `posts.sort((a, b) => b.netVotes - a.netVotes)`.
Array.prototype.sort is stable (ES2019), with this comparator a descending
stable sort by netVotes. -/
def listPosts (db : DB) (voterId : String) : List EnrichedPost :=
  (db.posts.map (enrich db voterId)).mergeSort
    (fun a b => decide (b.netVotes ≤ a.netVotes))

/-- A batch of vote requests: each entry is (postId, voterId, type, now). -/
def castVoteSeq (db : DB) : List (String × String × String × String) → DB
  | [] => db
  | (id, voterId, ty, now) :: rest => castVoteSeq (castVote db id voterId ty now).1 rest

/-- The at-most-one-vote-per-(post, voter) store invariant. -/
def VoteUniq (votes : List Vote) : Prop :=
  ∀ pid vid, (votes.filter (votePair pid vid)).length ≤ 1

/-! Concrete sample stores, used to exercise the theorems below on closed
inputs. -/

/-- A minimal post. -/
def samplePost (i owner : String) : Post :=
  { id := i, content := "hello", tags := [], media := [], ownerId := owner,
    timestamp := "t0", color := 0 }

/-- One post, nothing else. -/
def oneDB : DB :=
  { posts := [samplePost "p1" "alice"], comments := [], votes := [],
    bookmarks := [], reports := [] }

/-- Two posts with dependent comments, votes and bookmarks on each. -/
def twoDB : DB :=
  { posts := [samplePost "p1" "alice", samplePost "p2" "bob"]
    comments := [⟨"c1", "p1", "hi", "t0"⟩, ⟨"c2", "p2", "yo", "t0"⟩]
    votes := [⟨"p1", "v1", "up", "t0"⟩, ⟨"p2", "v1", "down", "t0"⟩]
    bookmarks := [⟨"p1", "u1", "t0"⟩, ⟨"p2", "u1", "t0"⟩]
    reports := [] }

/-- A post by alice with a comment and a vote from someone else hanging off
it. -/
def banDB : DB :=
  { posts := [samplePost "p1" "alice"]
    comments := [⟨"c1", "p1", "hi", "t0"⟩]
    votes := [⟨"p1", "bob", "up", "t0"⟩]
    bookmarks := []
    reports := [] }

/-- One post sitting at netVotes = 9. -/
def nineDB : DB :=
  { posts := [samplePost "p1" "alice"]
    comments := []
    votes := [⟨"p1", "u1", "up", "t0"⟩, ⟨"p1", "u2", "up", "t0"⟩,
              ⟨"p1", "u3", "up", "t0"⟩, ⟨"p1", "u4", "up", "t0"⟩,
              ⟨"p1", "u5", "up", "t0"⟩, ⟨"p1", "u6", "up", "t0"⟩,
              ⟨"p1", "u7", "up", "t0"⟩, ⟨"p1", "u8", "up", "t0"⟩,
              ⟨"p1", "u9", "up", "t0"⟩]
    bookmarks := []
    reports := [] }

/-- One post with one bookmark on it. -/
def bmDB : DB :=
  { posts := [samplePost "p1" "alice"], comments := [], votes := []
    bookmarks := [⟨"p1", "u1", "t0"⟩], reports := [] }

/-- twoDB after deleting "p1": only the records of "p2" remain. -/
def delDB : DB :=
  { posts := [samplePost "p2" "bob"]
    comments := [⟨"c2", "p2", "yo", "t0"⟩]
    votes := [⟨"p2", "v1", "down", "t0"⟩]
    bookmarks := [⟨"p2", "u1", "t0"⟩]
    reports := [] }

/-! ### Generic list helpers -/

theorem find?_eq_head?_filter {α : Type _} (p : α → Bool) (l : List α) :
    l.find? p = (l.filter p).head? := by
  induction l with
  | nil => rfl
  | cons a t ih =>
    by_cases h : p a
    · rw [List.find?_cons_of_pos t h, List.filter_cons_of_pos h, List.head?_cons]
    · rw [List.find?_cons_of_neg t h, List.filter_cons_of_neg h, ih]

theorem any_eq_isSome_find? {α : Type _} (p : α → Bool) (l : List α) :
    l.any p = (l.find? p).isSome := by
  induction l with
  | nil => rfl
  | cons a t ih => by_cases h : p a <;> simp [h, ih]

theorem tail_eq_nil_of_length_le_one {α : Type _} {l : List α}
    (h : l.length ≤ 1) : l.tail = [] := by
  cases l with
  | nil => rfl
  | cons a t =>
    simp only [List.length_cons] at h
    have ht : t.length = 0 := by omega
    simpa using List.eq_nil_of_length_eq_zero ht

theorem filter_eq_cons_of_find? {α : Type _} {p : α → Bool} {l : List α} {a : α}
    (h : l.find? p = some a) : l.filter p = a :: (l.filter p).tail := by
  rw [find?_eq_head?_filter] at h
  cases hf : l.filter p with
  | nil => rw [hf] at h; cases h
  | cons b t =>
    rw [hf] at h
    simp only [List.head?_cons, Option.some.injEq] at h
    simp [h]

/-! ### Vote-ledger helpers -/

theorem votePair_mk (id vid ty now : String) :
    votePair id vid ⟨id, vid, ty, now⟩ = true := by
  simp [votePair]

theorem votePair_set_type (id vid ty : String) (v : Vote) :
    votePair id vid { v with type := ty } = votePair id vid v := by
  simp [votePair]

theorem updateVotes_of_find?_none (id vid ty now : String) :
    ∀ votes : List Vote, votes.find? (votePair id vid) = none →
      updateVotes votes id vid ty now = votes ++ [⟨id, vid, ty, now⟩] := by
  intro votes
  induction votes with
  | nil => intro _; rfl
  | cons v rest ih =>
    intro h
    by_cases hp : votePair id vid v
    · rw [List.find?_cons_of_pos rest hp] at h; cases h
    · rw [List.find?_cons_of_neg rest hp] at h
      simp [updateVotes, hp, ih h]

theorem filter_updateVotes_disjoint (id vid ty now : String) (q : Vote → Bool)
    (hq : ∀ v, votePair id vid v = true → q v = false) :
    ∀ votes : List Vote,
      (updateVotes votes id vid ty now).filter q = votes.filter q := by
  intro votes
  induction votes with
  | nil => simp [updateVotes, hq _ (votePair_mk id vid ty now)]
  | cons v rest ih =>
    by_cases hp : votePair id vid v
    · have hqv : q v = false := hq v hp
      have hqv2 : q { v with type := ty } = false := by
        apply hq
        rw [votePair_set_type]
        exact hp
      by_cases hty : v.type == ty
      · simp [updateVotes, hp, hty, hqv]
      · simp [updateVotes, hp, hty, hqv, hqv2]
    · simp only [updateVotes, hp, if_false, Bool.false_eq_true, List.filter_cons]
      rw [ih]

theorem filter_pair_updateVotes (id vid ty now : String) :
    ∀ votes : List Vote,
      (updateVotes votes id vid ty now).filter (votePair id vid) =
        match votes.find? (votePair id vid) with
        | none => [⟨id, vid, ty, now⟩]
        | some v =>
          if v.type == ty then (votes.filter (votePair id vid)).tail
          else { v with type := ty } :: (votes.filter (votePair id vid)).tail := by
  intro votes
  induction votes with
  | nil => simp [updateVotes, votePair_mk]
  | cons v rest ih =>
    by_cases hp : votePair id vid v
    · by_cases hty : v.type == ty
      · simp [updateVotes, hp, hty]
      · have hp2 : votePair id vid { v with type := ty } = true := by
          rw [votePair_set_type]; exact hp
        simp [updateVotes, hp, hty, hp2]
    · simp [updateVotes, hp, ih]

theorem length_filter_pair_updateVotes (id vid ty now : String) (votes : List Vote)
    (h : (votes.filter (votePair id vid)).length ≤ 1) :
    ((updateVotes votes id vid ty now).filter (votePair id vid)).length ≤ 1 := by
  rw [filter_pair_updateVotes]
  cases hfind : votes.find? (votePair id vid) with
  | none => simp
  | some v =>
    have hcons := filter_eq_cons_of_find? hfind
    by_cases hty : v.type == ty
    · simp only [hty, if_true]
      rw [hcons] at h
      simp only [List.length_cons] at h
      omega
    · simp only [hty, Bool.false_eq_true, if_false, List.length_cons]
      rw [hcons] at h
      simp only [List.length_cons] at h
      have htail : (votes.filter (votePair id vid)).tail.length = 0 := by
        rw [hcons]
        simp only [List.tail_cons]
        omega
      omega

theorem voteUniq_updateVotes (id vid ty now : String) (votes : List Vote)
    (h : VoteUniq votes) : VoteUniq (updateVotes votes id vid ty now) := by
  intro pid vid2
  by_cases hpair : pid = id ∧ vid2 = vid
  · obtain ⟨rfl, rfl⟩ := hpair
    exact length_filter_pair_updateVotes pid vid2 ty now votes (h pid vid2)
  · rw [filter_updateVotes_disjoint id vid ty now (votePair pid vid2) ?_ votes]
    · exact h pid vid2
    · intro v hv
      have h1 : v.postId = id ∧ v.voterId = vid := by
        simpa [votePair] using hv
      cases hq : votePair pid vid2 v
      · rfl
      · exfalso
        have h2 : v.postId = pid ∧ v.voterId = vid2 := by
          simpa [votePair] using hq
        exact hpair ⟨h2.1.symm.trans h1.1, h2.2.symm.trans h1.2⟩

/-- Unfolding of a successful vote call: the store change is updateVotes on
the votes collection only, and every response field is the recomputation the
route performs. -/
theorem castVote_ok_votes (db : DB) (id vid ty now : String) (db2 : DB)
    (r : VoteResponse)
    (h : castVote db id vid ty now = (db2, Except.ok r)) :
    db2.votes = updateVotes db.votes id vid ty now ∧
    db2.posts = db.posts ∧ db2.comments = db.comments ∧
    db2.bookmarks = db.bookmarks ∧ db2.reports = db.reports ∧
    r.upvotes = upvotesFor db2.votes id ∧
    r.downvotes = downvotesFor db2.votes id ∧
    r.netVotes = netVotesFor db2.votes id ∧
    r.milestone = milestoneFor r.netVotes ∧
    r.userVote = (db2.votes.find? (votePair id vid)).map Vote.type := by
  unfold castVote at h
  split at h
  · exact absurd (congrArg Prod.snd h) (by simp)
  · split at h
    · exact absurd (congrArg Prod.snd h) (by simp)
    · rw [Prod.mk.injEq] at h
      obtain ⟨hdb, hok⟩ := h
      injection hok with hr
      subst hdb
      subst hr
      exact ⟨rfl, rfl, rfl, rfl, rfl, rfl, rfl, rfl, rfl, rfl⟩

/-- C1: a successful castVote on a store holding at most one vote for the
(postId, voterId) pair implements the toggle state machine: an existing vote
of the same direction is removed and userVote answers null; an existing vote
of the opposite direction is overwritten in place, leaving exactly one row
for the pair, and userVote answers the requested direction; with no existing
vote a fresh row is inserted and userVote answers the requested direction.
Votes of every other (post, voter) pair are untouched. -/
theorem castVote_toggle_semantics (db : DB) (id vid ty now : String)
    (db2 : DB) (r : VoteResponse)
    (hcall : castVote db id vid ty now = (db2, Except.ok r))
    (huniq : (db.votes.filter (votePair id vid)).length ≤ 1) :
    db2.votes.filter (fun v => !(votePair id vid v)) =
      db.votes.filter (fun v => !(votePair id vid v)) ∧
    (match db.votes.find? (votePair id vid) with
     | some v =>
       if v.type == ty then
         db2.votes.filter (votePair id vid) = [] ∧ r.userVote = none
       else
         db2.votes.filter (votePair id vid) = [{ v with type := ty }] ∧
         r.userVote = some ty
     | none =>
       db2.votes = db.votes ++ [⟨id, vid, ty, now⟩] ∧
       r.userVote = some ty) := by
  obtain ⟨hv, -, -, -, -, -, -, -, -, huser⟩ :=
    castVote_ok_votes db id vid ty now db2 r hcall
  constructor
  · rw [hv]
    exact filter_updateVotes_disjoint id vid ty now _
      (fun v hpv => by simp [hpv]) db.votes
  · cases hfind : db.votes.find? (votePair id vid) with
    | none =>
      have happ := updateVotes_of_find?_none id vid ty now db.votes hfind
      refine ⟨by rw [hv, happ], ?_⟩
      rw [huser, hv, happ, List.find?_append, hfind]
      simp [votePair_mk]
    | some v =>
      have htail : (db.votes.filter (votePair id vid)).tail = [] :=
        tail_eq_nil_of_length_le_one huniq
      have hfp := filter_pair_updateVotes id vid ty now db.votes
      rw [hfind] at hfp
      by_cases hty : v.type == ty
      · simp only [hty, if_true] at hfp ⊢
        refine ⟨by rw [hv, hfp, htail], ?_⟩
        rw [huser, find?_eq_head?_filter, hv, hfp, htail]
        rfl
      · simp only [hty, Bool.false_eq_true, if_false] at hfp ⊢
        refine ⟨by rw [hv, hfp, htail], ?_⟩
        rw [huser, find?_eq_head?_filter, hv, hfp, htail]
        rfl

/-- C1 witness: the insert case on a concrete one-post store. -/
theorem castVote_toggle_semantics_witness :
    castVote oneDB "p1" "u1" "up" "t1" =
      ({ oneDB with votes := [⟨"p1", "u1", "up", "t1"⟩] },
        Except.ok ⟨1, 0, 1, none, some "up"⟩) ∧
    (oneDB.votes.filter (votePair "p1" "u1")).length ≤ 1 ∧
    (({ oneDB with votes := [⟨"p1", "u1", "up", "t1"⟩] } : DB).votes.filter
        (fun v => !(votePair "p1" "u1" v)) =
      oneDB.votes.filter (fun v => !(votePair "p1" "u1" v)) ∧
     (({ oneDB with votes := [⟨"p1", "u1", "up", "t1"⟩] } : DB).votes =
        oneDB.votes ++ [⟨"p1", "u1", "up", "t1"⟩] ∧
      (some "up" : Option String) = some "up")) :=
  have hc : castVote oneDB "p1" "u1" "up" "t1" =
      ({ oneDB with votes := [⟨"p1", "u1", "up", "t1"⟩] },
        Except.ok ⟨1, 0, 1, none, some "up"⟩) := by rfl
  ⟨hc, by simp [oneDB],
    castVote_toggle_semantics oneDB "p1" "u1" "up" "t1" _ _ hc (by simp [oneDB])⟩

theorem castVote_fst_voteUniq (db : DB) (h : VoteUniq db.votes)
    (id vid ty now : String) : VoteUniq ((castVote db id vid ty now).1.votes) := by
  unfold castVote
  split
  · exact h
  · split
    · exact h
    · exact voteUniq_updateVotes id vid ty now db.votes h

/-- C2: starting from a store in which each (postId, voterId) pair has at
most one vote row, any sequence of castVote calls keeps that invariant, and
every successful call answers a netVotes equal to the number of up rows
minus the number of down rows recomputed over the updated vote
collection. -/
theorem castVoteSeq_voteUniq (db : DB) (h : VoteUniq db.votes) :
    (∀ ops, VoteUniq ((castVoteSeq db ops).votes)) ∧
    (∀ id vid ty now db2 r, castVote db id vid ty now = (db2, Except.ok r) →
       r.netVotes =
         (upvotesFor db2.votes id : Int) - (downvotesFor db2.votes id : Int)) := by
  constructor
  · suffices hs : ∀ ops (d : DB), VoteUniq d.votes →
        VoteUniq ((castVoteSeq d ops).votes) by
      intro ops
      exact hs ops db h
    intro ops
    induction ops with
    | nil => intro d hd; exact hd
    | cons op rest ih =>
      intro d hd
      obtain ⟨id, vid, ty, now⟩ := op
      exact ih _ (castVote_fst_voteUniq d hd id vid ty now)
  · intro id vid ty now db2 r hcall
    have hnet := (castVote_ok_votes db id vid ty now db2 r hcall).2.2.2.2.2.2.2.1
    simpa [netVotesFor] using hnet

/-- C2 witness: the empty vote collection satisfies the invariant and an
up-then-down toggle sequence keeps it. -/
theorem castVoteSeq_voteUniq_witness :
    VoteUniq oneDB.votes ∧
    VoteUniq ((castVoteSeq oneDB
      [("p1", "u1", "up", "t1"), ("p1", "u1", "down", "t2")]).votes) :=
  have h : VoteUniq oneDB.votes := by intro pid vid; simp [oneDB]
  ⟨h, (castVoteSeq_voteUniq oneDB h).1 _⟩

/-- C5: a successful castVote answers a milestone signal exactly when the
netVotes it recomputes after the call equals 10, 50 or 100; netVotes is the
recomputation over the updated vote collection, so leaving and re-entering a
threshold re-emits and staying off it emits nothing. -/
theorem castVote_milestone (db : DB) (id vid ty now : String) (db2 : DB)
    (r : VoteResponse)
    (hcall : castVote db id vid ty now = (db2, Except.ok r)) :
    r.netVotes = netVotesFor db2.votes id ∧
    (r.milestone ≠ none ↔
      (r.netVotes = 10 ∨ r.netVotes = 50 ∨ r.netVotes = 100)) := by
  obtain ⟨-, -, -, -, -, -, -, hnet, hmil, -⟩ :=
    castVote_ok_votes db id vid ty now db2 r hcall
  refine ⟨hnet, ?_⟩
  rw [hmil]
  unfold milestoneFor
  by_cases h10 : r.netVotes = 10
  · simp [h10]
  · by_cases h50 : r.netVotes = 50
    · simp [h10, h50]
    · by_cases h100 : r.netVotes = 100
      · simp [h10, h50, h100]
      · simp [h10, h50, h100]

/-- C5 witness: voting a post from netVotes = 9 to 10 emits the milestone. -/
theorem castVote_milestone_witness :
    castVote nineDB "p1" "u10" "up" "t1" =
      ({ nineDB with votes := nineDB.votes ++ [⟨"p1", "u10", "up", "t1"⟩] },
        Except.ok ⟨10, 0, 10, some "Hot Post!", some "up"⟩) ∧
    ((some "Hot Post!" : Option String) ≠ none ↔
      ((10 : Int) = 10 ∨ (10 : Int) = 50 ∨ (10 : Int) = 100)) :=
  have hc : castVote nineDB "p1" "u10" "up" "t1" =
      ({ nineDB with votes := nineDB.votes ++ [⟨"p1", "u10", "up", "t1"⟩] },
        Except.ok ⟨10, 0, 10, some "Hot Post!", some "up"⟩) := by rfl
  ⟨hc, (castVote_milestone nineDB "p1" "u10" "up" "t1" _ _ hc).2⟩

/-! ### Cascade-delete helpers -/

theorem filter_beq_of_filter_bne {α : Type _} (f : α → String) (id : String)
    (l : List α) :
    (l.filter (fun a => f a != id)).filter (fun a => f a == id) = [] := by
  rw [List.filter_filter]
  apply List.filter_eq_nil_iff.mpr
  intro a _
  cases h : f a == id <;> simp [bne, h]

theorem filter_bne_of_filter_bne {α : Type _} (f : α → String) (id : String)
    (l : List α) :
    (l.filter (fun a => f a != id)).filter (fun a => f a != id) =
      l.filter (fun a => f a != id) := by
  rw [List.filter_filter]
  congr 1
  funext a
  by_cases h : f a == id <;> simp [h]

theorem filter_beq_removeFirstPost (id : String) :
    ∀ ps : List Post, (removeFirstPost ps id).filter (fun p => p.id == id) =
      (ps.filter (fun p => p.id == id)).tail := by
  intro ps
  induction ps with
  | nil => rfl
  | cons p rest ih =>
    by_cases hp : p.id == id
    · simp [removeFirstPost, hp]
    · simp [removeFirstPost, hp, ih]

theorem filter_bne_removeFirstPost (id : String) :
    ∀ ps : List Post, (removeFirstPost ps id).filter (fun p => p.id != id) =
      ps.filter (fun p => p.id != id) := by
  intro ps
  induction ps with
  | nil => rfl
  | cons p rest ih =>
    by_cases hp : p.id == id
    · have hb : (p.id != id) = false := by simp [bne, hp]
      simp [removeFirstPost, hp, hb]
    · have hb : (p.id != id) = true := by simp [bne, hp]
      simp [removeFirstPost, hp, hb, ih]

/-- C3: a successful delete — through the owner route or the admin route —
leaves no post, comment, vote or bookmark carrying the deleted postId, keeps
every record carrying any other postId, and does not touch reports.  (The
admin route drops the first post with the id, so post-id uniqueness is
assumed for it.) -/
theorem deletePost_cascade (db : DB) (id requesterId : String) :
    (∀ db2, deletePost db id requesterId = (db2, Except.ok ()) →
       db2.posts.filter (fun p => p.id == id) = [] ∧
       db2.comments.filter (fun c => c.postId == id) = [] ∧
       db2.votes.filter (fun v => v.postId == id) = [] ∧
       db2.bookmarks.filter (fun b => b.postId == id) = [] ∧
       db2.posts.filter (fun p => p.id != id) =
         db.posts.filter (fun p => p.id != id) ∧
       db2.comments.filter (fun c => c.postId != id) =
         db.comments.filter (fun c => c.postId != id) ∧
       db2.votes.filter (fun v => v.postId != id) =
         db.votes.filter (fun v => v.postId != id) ∧
       db2.bookmarks.filter (fun b => b.postId != id) =
         db.bookmarks.filter (fun b => b.postId != id) ∧
       db2.reports = db.reports) ∧
    ((db.posts.filter (fun p => p.id == id)).length ≤ 1 →
     ∀ db2, adminDeletePost db id = (db2, Except.ok ()) →
       db2.posts.filter (fun p => p.id == id) = [] ∧
       db2.comments.filter (fun c => c.postId == id) = [] ∧
       db2.votes.filter (fun v => v.postId == id) = [] ∧
       db2.bookmarks.filter (fun b => b.postId == id) = [] ∧
       db2.posts.filter (fun p => p.id != id) =
         db.posts.filter (fun p => p.id != id) ∧
       db2.comments.filter (fun c => c.postId != id) =
         db.comments.filter (fun c => c.postId != id) ∧
       db2.votes.filter (fun v => v.postId != id) =
         db.votes.filter (fun v => v.postId != id) ∧
       db2.bookmarks.filter (fun b => b.postId != id) =
         db.bookmarks.filter (fun b => b.postId != id) ∧
       db2.reports = db.reports) := by
  constructor
  · intro db2 h
    unfold deletePost at h
    split at h
    · exact absurd (congrArg Prod.snd h) (by simp)
    · split at h
      · exact absurd (congrArg Prod.snd h) (by simp)
      · rw [Prod.mk.injEq] at h
        obtain ⟨hdb, -⟩ := h
        subst hdb
        refine ⟨filter_beq_of_filter_bne Post.id id db.posts,
          filter_beq_of_filter_bne Comment.postId id db.comments,
          filter_beq_of_filter_bne Vote.postId id db.votes,
          filter_beq_of_filter_bne Bookmark.postId id db.bookmarks,
          filter_bne_of_filter_bne Post.id id db.posts,
          filter_bne_of_filter_bne Comment.postId id db.comments,
          filter_bne_of_filter_bne Vote.postId id db.votes,
          filter_bne_of_filter_bne Bookmark.postId id db.bookmarks, rfl⟩
  · intro hlen db2 h
    unfold adminDeletePost at h
    split at h
    · exact absurd (congrArg Prod.snd h) (by simp)
    · rw [Prod.mk.injEq] at h
      obtain ⟨hdb, -⟩ := h
      subst hdb
      refine ⟨?_, filter_beq_of_filter_bne Comment.postId id db.comments,
        filter_beq_of_filter_bne Vote.postId id db.votes,
        filter_beq_of_filter_bne Bookmark.postId id db.bookmarks,
        filter_bne_removeFirstPost id db.posts,
        filter_bne_of_filter_bne Comment.postId id db.comments,
        filter_bne_of_filter_bne Vote.postId id db.votes,
        filter_bne_of_filter_bne Bookmark.postId id db.bookmarks, rfl⟩
      rw [filter_beq_removeFirstPost id db.posts]
      exact tail_eq_nil_of_length_le_one hlen

/-- C3 witness: deleting "p1" from a two-post store, by owner and by admin. -/
theorem deletePost_cascade_witness :
    deletePost twoDB "p1" "alice" = (delDB, Except.ok ()) ∧
    (twoDB.posts.filter (fun p => p.id == "p1")).length ≤ 1 ∧
    adminDeletePost twoDB "p1" = (delDB, Except.ok ()) ∧
    delDB.posts.filter (fun p => p.id == "p1") = [] ∧
    delDB.comments.filter (fun c => c.postId == "p1") = [] ∧
    delDB.votes.filter (fun v => v.postId == "p1") = [] ∧
    delDB.bookmarks.filter (fun b => b.postId == "p1") = [] ∧
    delDB.posts.filter (fun p => p.id != "p1") =
      twoDB.posts.filter (fun p => p.id != "p1") ∧
    delDB.comments.filter (fun c => c.postId != "p1") =
      twoDB.comments.filter (fun c => c.postId != "p1") ∧
    delDB.votes.filter (fun v => v.postId != "p1") =
      twoDB.votes.filter (fun v => v.postId != "p1") ∧
    delDB.bookmarks.filter (fun b => b.postId != "p1") =
      twoDB.bookmarks.filter (fun b => b.postId != "p1") ∧
    delDB.reports = twoDB.reports :=
  have h1 := (deletePost_cascade twoDB "p1" "alice").1 delDB (by rfl)
  have h2 := (deletePost_cascade twoDB "p1" "alice").2 (by decide) delDB (by rfl)
  ⟨rfl, by decide, rfl, h1.1, h1.2.1, h1.2.2.1, h1.2.2.2.1, h2.2.2.2.2.1,
    h2.2.2.2.2.2.1, h2.2.2.2.2.2.2.1, h2.2.2.2.2.2.2.2.1, h1.2.2.2.2.2.2.2.2⟩

/-- C4 (code bug): banning "alice" with deletePosts = true on a store where
her post "p1" has a comment and a vote from someone else removes the post
and records the ban, but the dependent comment and vote survive — the route
filters comments and votes against the already-filtered posts list, in which
no post of the banned user remains, so the `!post` branch keeps every row.
The set-membership ban itself is idempotent. -/
theorem banUser_cascade_keeps_dependents :
    (banUser [] banDB "alice" true).1 = ["alice"] ∧
    (banUser [] banDB "alice" true).2.posts = [] ∧
    (banUser [] banDB "alice" true).2.comments = [⟨"c1", "p1", "hi", "t0"⟩] ∧
    (banUser [] banDB "alice" true).2.votes = [⟨"p1", "bob", "up", "t0"⟩] ∧
    (banUser ["alice"] banDB "alice" false).1 = ["alice"] :=
  ⟨rfl, rfl, rfl, rfl, rfl⟩

/-! ### Bookmark-ledger helpers -/

theorem bookmarkPair_mk (id uid now : String) :
    bookmarkPair id uid ⟨id, uid, now⟩ = true := by
  simp [bookmarkPair]

theorem filter_pair_removeFirstBookmark (id uid : String) :
    ∀ bs : List Bookmark,
      (removeFirstBookmark bs id uid).filter (bookmarkPair id uid) =
        (bs.filter (bookmarkPair id uid)).tail := by
  intro bs
  induction bs with
  | nil => rfl
  | cons b rest ih =>
    by_cases hb : bookmarkPair id uid b
    · simp [removeFirstBookmark, hb]
    · simp [removeFirstBookmark, hb, ih]

theorem filter_not_removeFirstBookmark (id uid : String) :
    ∀ bs : List Bookmark,
      (removeFirstBookmark bs id uid).filter (fun b => !(bookmarkPair id uid b)) =
        bs.filter (fun b => !(bookmarkPair id uid b)) := by
  intro bs
  induction bs with
  | nil => rfl
  | cons b rest ih =>
    by_cases hb : bookmarkPair id uid b
    · simp [removeFirstBookmark, hb]
    · simp [removeFirstBookmark, hb, ih]

/-- C6: toggleBookmark returns bookmarked = false and removes the pair's
bookmark when one exists, returns bookmarked = true and appends one when
none exists, and toggling twice restores both the bookmarked state of the
pair and every bookmark of other pairs (assuming the at-most-one-bookmark
store invariant for the pair). -/
theorem toggleBookmark_spec (db : DB) (id uid now now2 : String)
    (huniq : (db.bookmarks.filter (bookmarkPair id uid)).length ≤ 1) :
    (toggleBookmark db id uid now).2 =
      !(db.bookmarks.any (bookmarkPair id uid)) ∧
    (db.bookmarks.any (bookmarkPair id uid) = true →
       (toggleBookmark db id uid now).1.bookmarks =
         removeFirstBookmark db.bookmarks id uid ∧
       (toggleBookmark db id uid now).1.bookmarks.filter
         (bookmarkPair id uid) = []) ∧
    (db.bookmarks.any (bookmarkPair id uid) = false →
       (toggleBookmark db id uid now).1.bookmarks =
         db.bookmarks ++ [⟨id, uid, now⟩]) ∧
    (toggleBookmark (toggleBookmark db id uid now).1 id uid now2).1.bookmarks.any
        (bookmarkPair id uid) = db.bookmarks.any (bookmarkPair id uid) ∧
    (toggleBookmark (toggleBookmark db id uid now).1 id uid now2).1.bookmarks.filter
        (fun b => !(bookmarkPair id uid b)) =
      db.bookmarks.filter (fun b => !(bookmarkPair id uid b)) := by
  cases hfind : db.bookmarks.find? (bookmarkPair id uid) with
  | some b =>
    have hany : db.bookmarks.any (bookmarkPair id uid) = true := by
      rw [any_eq_isSome_find?, hfind]; rfl
    have ht1 : toggleBookmark db id uid now =
        ({ db with bookmarks := removeFirstBookmark db.bookmarks id uid }, false) := by
      unfold toggleBookmark
      rw [hfind]
    have hfp : (removeFirstBookmark db.bookmarks id uid).filter
        (bookmarkPair id uid) = [] := by
      rw [filter_pair_removeFirstBookmark]
      exact tail_eq_nil_of_length_le_one huniq
    have hfind2 : (removeFirstBookmark db.bookmarks id uid).find?
        (bookmarkPair id uid) = none := by
      rw [find?_eq_head?_filter, hfp]; rfl
    have ht2 : toggleBookmark
        ({ db with bookmarks := removeFirstBookmark db.bookmarks id uid } : DB)
        id uid now2 =
        ({ db with bookmarks :=
            removeFirstBookmark db.bookmarks id uid ++ [⟨id, uid, now2⟩] }, true) := by
      unfold toggleBookmark
      rw [hfind2]
    rw [ht1, hany]
    refine ⟨rfl, ?_, ?_, ?_, ?_⟩
    · intro _
      exact ⟨rfl, hfp⟩
    · intro hc
      cases hc
    · rw [ht2]
      simp [bookmarkPair_mk]
    · rw [ht2]
      simp only [List.filter_append, filter_not_removeFirstBookmark]
      simp [bookmarkPair_mk]
  | none =>
    have hany : db.bookmarks.any (bookmarkPair id uid) = false := by
      rw [any_eq_isSome_find?, hfind]; rfl
    have hfp0 : db.bookmarks.filter (bookmarkPair id uid) = [] := by
      have := find?_eq_head?_filter (bookmarkPair id uid) db.bookmarks
      rw [hfind] at this
      cases hf : db.bookmarks.filter (bookmarkPair id uid) with
      | nil => rfl
      | cons x t => rw [hf] at this; cases this
    have ht1 : toggleBookmark db id uid now =
        ({ db with bookmarks := db.bookmarks ++ [⟨id, uid, now⟩] }, true) := by
      unfold toggleBookmark
      rw [hfind]
    have hfind2 : (db.bookmarks ++ [(⟨id, uid, now⟩ : Bookmark)]).find?
        (bookmarkPair id uid) = some ⟨id, uid, now⟩ := by
      rw [List.find?_append, hfind]
      simp [bookmarkPair_mk]
    have ht2 : toggleBookmark
        ({ db with bookmarks := db.bookmarks ++ [⟨id, uid, now⟩] } : DB)
        id uid now2 =
        ({ db with bookmarks :=
            removeFirstBookmark (db.bookmarks ++ [⟨id, uid, now⟩]) id uid }, false) := by
      unfold toggleBookmark
      rw [hfind2]
    have hfp2 : (removeFirstBookmark (db.bookmarks ++ [(⟨id, uid, now⟩ : Bookmark)])
        id uid).filter (bookmarkPair id uid) = [] := by
      rw [filter_pair_removeFirstBookmark]
      rw [List.filter_append, hfp0]
      simp [bookmarkPair_mk]
    rw [ht1, hany]
    refine ⟨rfl, ?_, ?_, ?_, ?_⟩
    · intro hc
      cases hc
    · intro _
      rfl
    · rw [ht2]
      show (removeFirstBookmark (db.bookmarks ++ [⟨id, uid, now⟩]) id uid).any
        (bookmarkPair id uid) = false
      rw [any_eq_isSome_find?, find?_eq_head?_filter, hfp2]
      rfl
    · rw [ht2]
      show (removeFirstBookmark (db.bookmarks ++ [⟨id, uid, now⟩]) id uid).filter
          (fun b => !(bookmarkPair id uid b)) =
        db.bookmarks.filter (fun b => !(bookmarkPair id uid b))
      rw [filter_not_removeFirstBookmark]
      simp [bookmarkPair_mk]

/-- C6 witness: toggling an existing bookmark off and back on. -/
theorem toggleBookmark_spec_witness :
    (bmDB.bookmarks.filter (bookmarkPair "p1" "u1")).length ≤ 1 ∧
    (toggleBookmark bmDB "p1" "u1" "t1").2 =
      !(bmDB.bookmarks.any (bookmarkPair "p1" "u1")) ∧
    (toggleBookmark (toggleBookmark bmDB "p1" "u1" "t1").1 "p1" "u1" "t2").1.bookmarks.any
      (bookmarkPair "p1" "u1") = bmDB.bookmarks.any (bookmarkPair "p1" "u1") :=
  have hu : (bmDB.bookmarks.filter (bookmarkPair "p1" "u1")).length ≤ 1 := by decide
  have ht := toggleBookmark_spec bmDB "p1" "u1" "t1" "t2" hu
  ⟨hu, ht.1, ht.2.2.2.1⟩

/-- C10: the bookmark route checks nothing about the post: on a store whose
posts contain no post with the given id and whose bookmarks hold nothing for
the pair, toggleBookmark still succeeds, inserts a bookmark carrying the
nonexistent postId and answers bookmarked = true — a dangling bookmark is
observable at the interface. -/
theorem toggleBookmark_dangling (db : DB) (id uid now : String)
    (hnopost : db.posts.find? (fun p => p.id == id) = none)
    (hnobm : db.bookmarks.find? (bookmarkPair id uid) = none) :
    toggleBookmark db id uid now =
      ({ db with bookmarks := db.bookmarks ++ [⟨id, uid, now⟩] }, true) ∧
    (toggleBookmark db id uid now).1.bookmarks.any
      (fun b => b.postId == id) = true ∧
    (toggleBookmark db id uid now).1.posts.any
      (fun p => p.id == id) = false := by
  have ht : toggleBookmark db id uid now =
      ({ db with bookmarks := db.bookmarks ++ [⟨id, uid, now⟩] }, true) := by
    unfold toggleBookmark
    rw [hnobm]
  refine ⟨ht, ?_, ?_⟩
  · rw [ht]
    simp
  · rw [ht]
    show db.posts.any (fun p => p.id == id) = false
    rw [any_eq_isSome_find?, hnopost]
    rfl

/-- C10 witness: bookmarking a postId that matches no post. -/
theorem toggleBookmark_dangling_witness :
    oneDB.posts.find? (fun p => p.id == "p9") = none ∧
    oneDB.bookmarks.find? (bookmarkPair "p9" "u1") = none ∧
    toggleBookmark oneDB "p9" "u1" "t1" =
      ({ oneDB with bookmarks := oneDB.bookmarks ++ [⟨"p9", "u1", "t1"⟩] }, true) ∧
    (toggleBookmark oneDB "p9" "u1" "t1").1.bookmarks.any
      (fun b => b.postId == "p9") = true ∧
    (toggleBookmark oneDB "p9" "u1" "t1").1.posts.any
      (fun p => p.id == "p9") = false :=
  have h1 : oneDB.posts.find? (fun p => p.id == "p9") = none := by rfl
  have h2 : oneDB.bookmarks.find? (bookmarkPair "p9" "u1") = none := by rfl
  have ht := toggleBookmark_dangling oneDB "p9" "u1" "t1" h1 h2
  ⟨h1, h2, ht.1, ht.2.1, ht.2.2⟩

/-- C8: a createPost call whose content is empty after trimming or longer
than 1000 characters answers 400 and leaves the whole store unchanged — the
checks run before the store is touched. -/
theorem createPost_invalid (db : DB) (content : String)
    (tags media : List String) (ownerId newId now : String) (color : Nat)
    (h : content.trim.length = 0 ∨ 1000 < content.length) :
    createPost db content tags media ownerId newId now color =
      (db, Except.error 400) := by
  unfold createPost
  rcases h with h | h
  · rw [if_pos h]
  · by_cases h0 : content.trim.length = 0
    · rw [if_pos h0]
    · rw [if_neg h0, if_pos h]

/-- C8 witness: 1001-character content is rejected without touching the
store. -/
theorem createPost_invalid_witness :
    1000 < (String.mk (List.replicate 1001 'a')).length ∧
    createPost oneDB (String.mk (List.replicate 1001 'a')) [] [] "o" "n" "t" 0 =
      (oneDB, Except.error 400) :=
  have h : 1000 < (String.mk (List.replicate 1001 'a')).length := by
    show 1000 < (List.replicate 1001 'a').length
    rw [List.length_replicate]
    omega
  ⟨h, createPost_invalid oneDB _ [] [] "o" "n" "t" 0 (Or.inr h)⟩

/-- C9 (amended): submitReport answers 404 and leaves the store unchanged
when the post is absent; otherwise it appends exactly one report whose
postId, reportedBy and timestamp keys are populated — but the pushed object
has no status key at all, so no status equal to pending is stored. -/
theorem submitReport_spec (db : DB) (id : String) (reason : Option String)
    (reporterId newId now : String) :
    (db.posts.find? (fun p => p.id == id) = none →
       submitReport db id reason reporterId newId now =
         (db, Except.error 404)) ∧
    (∀ q, db.posts.find? (fun p => p.id == id) = some q →
       submitReport db id reason reporterId newId now =
         ({ db with reports := db.reports ++
             [mkReport newId id (reasonOrDefault reason) reporterId now] },
          Except.ok ()) ∧
       (mkReport newId id (reasonOrDefault reason) reporterId now).lookup
         "postId" = some id ∧
       (mkReport newId id (reasonOrDefault reason) reporterId now).lookup
         "reportedBy" = some reporterId ∧
       (mkReport newId id (reasonOrDefault reason) reporterId now).lookup
         "timestamp" = some now ∧
       (mkReport newId id (reasonOrDefault reason) reporterId now).lookup
         "status" = none) := by
  constructor
  · intro h
    unfold submitReport
    rw [h]
    rfl
  · intro q h
    refine ⟨?_, rfl, rfl, rfl, rfl⟩
    unfold submitReport
    rw [h]
    rfl

/-- C9 counterexample: at a concrete store the single appended report has no
status key, refuting a stored status of pending. -/
theorem submitReport_no_status :
    (submitReport oneDB "p1" (some "spam") "rep" "r1" "t1").1.reports.map
      (fun r => r.lookup "status") = [none] ∧
    (submitReport oneDB "p1" (some "spam") "rep" "r1" "t1").1.reports.map
      (fun r => r.lookup "status") ≠ [some "pending"] := by
  constructor
  · rfl
  · intro h
    cases h

/-- C9 witness: submitting a report against an existing post. -/
theorem submitReport_spec_witness :
    oneDB.posts.find? (fun p => p.id == "p1") = some (samplePost "p1" "alice") ∧
    submitReport oneDB "p1" (some "spam") "rep" "r1" "t1" =
      ({ oneDB with reports := oneDB.reports ++
          [mkReport "r1" "p1" (reasonOrDefault (some "spam")) "rep" "t1"] },
       Except.ok ()) ∧
    (mkReport "r1" "p1" (reasonOrDefault (some "spam")) "rep" "t1").lookup
      "status" = none :=
  have h : oneDB.posts.find? (fun p => p.id == "p1") =
      some (samplePost "p1" "alice") := by rfl
  have hs := (submitReport_spec oneDB "p1" (some "spam") "rep" "r1" "t1").2
    (samplePost "p1" "alice") h
  ⟨h, hs.1, hs.2.2.2.2⟩

/-! ### Feed-ordering helpers -/

theorem netVotes_trans (a b c : EnrichedPost)
    (hab : decide (b.netVotes ≤ a.netVotes) = true)
    (hbc : decide (c.netVotes ≤ b.netVotes) = true) :
    decide (c.netVotes ≤ a.netVotes) = true := by
  simp only [decide_eq_true_eq] at hab hbc ⊢
  exact le_trans hbc hab

theorem netVotes_total (a b : EnrichedPost) :
    (decide (b.netVotes ≤ a.netVotes) || decide (a.netVotes ≤ b.netVotes)) = true := by
  simp only [Bool.or_eq_true, decide_eq_true_eq]
  exact le_total b.netVotes a.netVotes

/-- C7: the GET /api/posts response is sorted by weakly decreasing netVotes;
posts of equal netVotes keep the relative order of the stored posts
collection (the filter at any netVotes value is unchanged by the sort); and
each element's netVotes is derived as up-count minus down-count over the
vote collection for its post. -/
theorem listPosts_sorted_stable (db : DB) (voterId : String) :
    (listPosts db voterId).Pairwise (fun a b => b.netVotes ≤ a.netVotes) ∧
    (∀ n : Int, (listPosts db voterId).filter (fun e => e.netVotes == n) =
       (db.posts.map (enrich db voterId)).filter (fun e => e.netVotes == n)) ∧
    (∀ e, e ∈ listPosts db voterId →
       e.netVotes = netVotesFor db.votes e.post.id) := by
  refine ⟨?_, ?_, ?_⟩
  · have hs := List.sorted_mergeSort
      netVotes_trans netVotes_total (db.posts.map (enrich db voterId))
    exact hs.imp (fun h => by simpa using h)
  · intro n
    have h1 : ((db.posts.map (enrich db voterId)).filter
        (fun e => e.netVotes == n)).Pairwise
        (fun a b : EnrichedPost => decide (b.netVotes ≤ a.netVotes) = true) := by
      apply List.pairwise_of_forall_mem_list
      intro a ha b hb
      have hna : a.netVotes = n := by
        simpa using (List.mem_filter.mp ha).2
      have hnb : b.netVotes = n := by
        simpa using (List.mem_filter.mp hb).2
      simp [hna, hnb]
    have h3 := List.sublist_mergeSort
      netVotes_trans netVotes_total h1
      (List.filter_sublist (db.posts.map (enrich db voterId)))
    have h4 : ((db.posts.map (enrich db voterId)).filter
        (fun e => e.netVotes == n)).filter (fun e => e.netVotes == n) =
        (db.posts.map (enrich db voterId)).filter (fun e => e.netVotes == n) := by
      apply List.filter_eq_self.mpr
      intro a ha
      exact (List.mem_filter.mp ha).2
    have h5 := h3.filter (fun e => e.netVotes == n)
    rw [h4] at h5
    have h6 := ((List.mergeSort_perm (db.posts.map (enrich db voterId))
      (fun a b : EnrichedPost => decide (b.netVotes ≤ a.netVotes))).filter
      (fun e => e.netVotes == n)).length_eq
    exact (h5.eq_of_length h6.symm).symm
  · intro e he
    rw [listPosts, List.mem_mergeSort] at he
    obtain ⟨p, -, rfl⟩ := List.mem_map.mp he
    rfl

/-- C7 witness: the feed at a concrete store, sorted and stable. -/
theorem listPosts_sorted_stable_witness :
    (listPosts twoDB "v").Pairwise (fun a b => b.netVotes ≤ a.netVotes) ∧
    (listPosts twoDB "v").filter (fun e => e.netVotes == (0 : Int)) =
      (twoDB.posts.map (enrich twoDB "v")).filter
        (fun e => e.netVotes == (0 : Int)) :=
  have h := listPosts_sorted_stable twoDB "v"
  ⟨h.1, h.2.1 0⟩

end Echo
